import Mathlib

/-!
Verification of the gluon-ts dataset ingestion and field-validation pipeline
(`src/gluonts/dataset/common.py`).

The embedding models:
* `pd.Timestamp` values as proleptic-Gregorian calendar points
  (year, month, day, nanoseconds-within-day) plus an optional timezone tag;
* pandas frequencies by the canonical frequency strings gluon-ts uses
  (`M`, `W`(-SUN), `B`, `D`, `H`, `T`, `S`), with `to_offset`'s `rollback`
  and `Timestamp.floor` given their documented grid semantics;
* numpy arrays as rectangular arrays (shape plus row-major elements; a
  scalar has an empty shape, i.e. rank 0) over a numeric domain of
  rationals extended with a NaN marker — numeric dtype conversion
  (int32/float32 rounding) is kept as a tag only, since no checked claim
  depends on numeric precision;
* Python `DataEntry` dictionaries as insertion-ordered association lists;
* Python exceptions as an `Except` error value distinguishing
  `GluonTSDataError` from `KeyError`/`TypeError`.

The `lru_cache` on `ProcessStartField.process` is semantically the identity
(the function is pure), so it is not modelled.
-/

namespace GluonTS

/-! ## Calendar arithmetic for `pd.Timestamp` -/

/-- Proleptic-Gregorian leap-year test. -/
def isLeap (y : ℤ) : Bool :=
  decide ((y % 4 = 0 ∧ ¬ y % 100 = 0) ∨ y % 400 = 0)

/-- Number of days in month `m` of a year with leap-flag `leap`. -/
def daysInMonthB (leap : Bool) (m : ℕ) : ℕ :=
  if m = 2 then (if leap then 29 else 28)
  else if m = 4 ∨ m = 6 ∨ m = 9 ∨ m = 11 then 30
  else 31

/-- Number of days in month `m` of year `y`. -/
def daysInMonth (y : ℤ) (m : ℕ) : ℕ :=
  daysInMonthB (isLeap y) m

/-- Days in the months strictly before month `m` (non-leap year). -/
def dbm0 : ℕ → ℕ
  | 2 => 31
  | 3 => 59
  | 4 => 90
  | 5 => 120
  | 6 => 151
  | 7 => 181
  | 8 => 212
  | 9 => 243
  | 10 => 273
  | 11 => 304
  | 12 => 334
  | _ => 0

/-- Days in the months strictly before month `m` of a year with
leap-flag `leap`. -/
def daysBeforeMonth (leap : Bool) (m : ℕ) : ℕ :=
  dbm0 m + (if leap ∧ 3 ≤ m then 1 else 0)

/-- Length in days of a year with leap-flag `leap`. -/
def yearLenB (leap : Bool) : ℕ :=
  if leap then 366 else 365

/-- Leap-year counter: `leapCount b - leapCount a` is the number of leap
years in the interval `(a, b]`. -/
def leapCount (y : ℤ) : ℤ :=
  y / 4 - y / 100 + y / 400

/-- Days from 1970-01-01 to the first day of year `y` (negative before
1970). -/
def daysBeforeYear (y : ℤ) : ℤ :=
  365 * (y - 1970) + (leapCount (y - 1) - leapCount 1969)

/-- A point on the timeline, as `pd.Timestamp` stores it: a calendar date,
the nanosecond of the day, and an optional fixed-offset timezone (minutes);
`tz = none` is a timezone-naive timestamp. -/
structure Timestamp where
  year : ℤ
  month : ℕ
  day : ℕ
  ns : ℕ
  tz : Option ℤ := none
deriving DecidableEq, Repr

/-- Nanoseconds in a day. -/
def nsPerDay : ℕ := 86400000000000

/-- Nanoseconds in an hour. -/
def nsPerHour : ℕ := 3600000000000

/-- Nanoseconds in a minute. -/
def nsPerMinute : ℕ := 60000000000

/-- Nanoseconds in a second. -/
def nsPerSecond : ℕ := 1000000000

/-- Well-formed calendar point. -/
def Timestamp.Valid (t : Timestamp) : Prop :=
  1 ≤ t.month ∧ t.month ≤ 12 ∧ 1 ≤ t.day ∧
    t.day ≤ daysInMonth t.year t.month ∧ t.ns < nsPerDay

instance (t : Timestamp) : Decidable t.Valid := by
  unfold Timestamp.Valid; infer_instance

/-- Day number of the date of `t`, counted from 1970-01-01 (a Thursday). -/
def Timestamp.toDays (t : Timestamp) : ℤ :=
  daysBeforeYear t.year + (daysBeforeMonth (isLeap t.year) t.month : ℤ) + t.day - 1

/-- Models `timestamp.replace(hour=0, minute=0, second=0, microsecond=0,
nanosecond=0)`. -/
def Timestamp.zeroTime (t : Timestamp) : Timestamp :=
  { t with ns := 0 }

/-- The previous calendar day (date part only; time of day kept). -/
def Timestamp.prevDay (t : Timestamp) : Timestamp :=
  if 2 ≤ t.day then { t with day := t.day - 1 }
  else if 2 ≤ t.month then
    { t with month := t.month - 1, day := daysInMonth t.year (t.month - 1) }
  else
    { t with year := t.year - 1, month := 12, day := 31 }

/-- Go back `k` calendar days. -/
def Timestamp.subDays (t : Timestamp) : ℕ → Timestamp
  | 0 => t
  | k + 1 => (t.subDays k).prevDay

/-- Day of week with Sunday = 0 (1970-01-01 was a Thursday, hence the +4). -/
def Timestamp.weekday0 (t : Timestamp) : ℕ :=
  ((t.toDays + 4) % 7).toNat

/-- Models `Week(weekday=6).rollback`: move back to the most recent Sunday
(stay put on a Sunday). -/
def sundayRollback (t : Timestamp) : Timestamp :=
  t.subDays t.weekday0

/-- Models `MonthEnd().rollback`: move back to the most recent last day of a
month (stay put on a month end). -/
def monthEndRollback (t : Timestamp) : Timestamp :=
  if t.day = daysInMonth t.year t.month then t
  else if 2 ≤ t.month then
    { t with month := t.month - 1, day := daysInMonth t.year (t.month - 1) }
  else
    { t with year := t.year - 1, month := 12, day := 31 }

/-- Models `timestamp.floor(freq)` for a fixed (intra-day) frequency of
period `p` nanoseconds: round the nanosecond-of-day down to a multiple of
`p`. -/
def Timestamp.floorTo (t : Timestamp) (p : ℕ) : Timestamp :=
  { t with ns := t.ns / p * p }

/-- Chronological order on timestamps (via day number, then time of day). -/
def Timestamp.tle (a b : Timestamp) : Prop :=
  a.toDays < b.toDays ∨ (a.toDays = b.toDays ∧ a.ns ≤ b.ns)

instance (a b : Timestamp) : Decidable (a.tle b) := by
  unfold Timestamp.tle; infer_instance

/-! ## Frequencies -/

/-- The pandas frequencies the pipeline is used with; `Min` is minutely
(pandas alias `T`), `W` standardizes to `W-SUN`. -/
inductive Freq where
  | M
  | W
  | B
  | D
  | H
  | Min
  | S
deriving DecidableEq, Repr

/-- Models `pd.Timestamp(..., freq=f).freq.name`, the standardized
frequency string ('W' standardizes to 'W-SUN'). -/
def Freq.canonicalName : Freq → String
  | .M => "M"
  | .W => "W-SUN"
  | .B => "B"
  | .D => "D"
  | .H => "H"
  | .Min => "T"
  | .S => "S"

/-- Period in nanoseconds of the fixed frequencies (the non-fixed
frequencies `M`, `W`, `B` never reach the flooring branch of `process`). -/
def Freq.period : Freq → ℕ
  | .D => nsPerDay
  | .H => nsPerHour
  | .Min => nsPerMinute
  | .S => nsPerSecond
  | _ => nsPerDay

/-- Models `to_offset(freq).rollback` for the offsets reaching the
month-end / week-end branch of `process`. -/
def Freq.rollback : Freq → Timestamp → Timestamp
  | .M, t => monthEndRollback t
  | .W, t => sundayRollback t
  | _, t => t

/-- The body of `ProcessStartField.process` after parsing: the timestamp
normalization algorithm of `src/gluonts/dataset/common.py` lines 312–328.
(`lru_cache` is pure caching and semantically the identity.) -/
def normalize (t : Timestamp) (f : Freq) : Timestamp :=
  if f.canonicalName = "M" ∨ f.canonicalName = "W-SUN" then
    f.rollback t.zeroTime
  else if f.canonicalName = "B" then
    t
  else
    t.floorTo f.period

/-- The timestamp lies on a last-day-of-month grid point. -/
def isMonthEnd (t : Timestamp) : Prop :=
  t.day = daysInMonth t.year t.month

instance (t : Timestamp) : Decidable (isMonthEnd t) := by
  unfold isMonthEnd; infer_instance

/-- The timestamp's date is a Sunday. -/
def isSunday (t : Timestamp) : Prop :=
  t.weekday0 = 0

instance (t : Timestamp) : Decidable (isSunday t) := by
  unfold isSunday; infer_instance

/-- Date grid of the two calendar-anchored frequencies. -/
def onGrid (f : Freq) (t : Timestamp) : Prop :=
  match f with
  | .M => isMonthEnd t
  | .W => isSunday t
  | _ => True

/-! ## Values, entries and errors -/

/-- A numeric cell: a finite value or the not-a-number marker. -/
inductive PyNum where
  | fin (q : ℚ)
  | nan
deriving DecidableEq, Repr

/-- A rectangular numeric array (numpy `ndarray` or the nested JSON list it
is built from): shape plus row-major elements.  `ndim` is the length of the
shape; a scalar has empty shape. -/
structure NdArr where
  shape : List ℕ
  elems : List PyNum
deriving DecidableEq, Repr

/-- Rank of the array (`value.ndim`). -/
def NdArr.ndim (a : NdArr) : ℕ :=
  a.shape.length

/-- Models `np.expand_dims(a=value, axis=0)`. -/
def NdArr.expandDims0 (a : NdArr) : NdArr :=
  { a with shape := 1 :: a.shape }

/-- Array dtype, kept as a tag (int32 for categorical, float32 for real). -/
inductive DType where
  | int32
  | float32
deriving DecidableEq, Repr

/-- Provenance attached to yielded entries (`SourceContext` named tuple). -/
structure SourceContext where
  source : String
  row : ℕ
deriving DecidableEq, Repr

deriving instance DecidableEq for Except

/-- A Python value stored in a `DataEntry` field.  `rawStart` carries the
outcome that `pd.Timestamp(string, freq=...)` would produce for the raw
start value (a parsed timestamp, or the `TypeError`/`ValueError` message);
`rawArr` is raw JSON numeric data, `npArr` a processed numpy array. -/
inductive Value where
  | null
  | rawStart (p : Except String Timestamp)
  | rawArr (a : NdArr)
  | npArr (dtype : DType) (a : NdArr)
  | ts (t : Timestamp)
  | src (c : SourceContext)
  | vStr (s : String)
deriving DecidableEq, Repr

/-- A `DataEntry`: a Python dict modelled as an insertion-ordered
association list with distinct keys. -/
abbrev Entry : Type := List (String × Value)

/-- Models `data[name] = value` on a dict: overwrite in place if the key
exists, else append. -/
def setKey : Entry → String → Value → Entry
  | [], k, v => [(k, v)]
  | (k', v') :: rest, k, v =>
      if k' = k then (k, v) :: rest else (k', v') :: setKey rest k v

/-- Models `data.get(name, None)` combined with the `is not None` test:
`none` when the key is absent or explicitly bound to `None`. -/
def pyGet (e : Entry) (k : String) : Option Value :=
  match List.lookup k e with
  | some .null => none
  | some v => some v
  | none => none

/-- Python exceptions raised by the pipeline: `GluonTSDataError`, a plain
`KeyError`, or a `TypeError`. -/
inductive PyError where
  | dataError (msg : String)
  | keyError (key : String)
  | typeError (msg : String)
deriving DecidableEq, Repr

/-- Models `np.asarray(value, dtype=...)` on the values that can occur in a
field: numeric data converts to an array, anything else is a `TypeError`
(dtype conversion itself is kept as a tag, see the header). -/
def asNd : Value → Option NdArr
  | .rawArr a => some a
  | .npArr _ a => some a
  | _ => none

/-! ## Field processors (`ProcessStartField`, `ProcessTimeSeriesField`,
`ProcessDataEntry`) -/

/-- The bad-shape message of `ProcessTimeSeriesField.__call__`; note the
source interpolates `ddiff` (the rank difference), not the actual rank. -/
def badShapeMsg (req_ndim : ℕ) (ddiff : ℤ) : String :=
  s!"JSON array has bad shape - expected {req_ndim} dimensions, got {ddiff}"

/-- The missing-required-field message of `ProcessTimeSeriesField`. -/
def missingFieldMsg (name : String) : String :=
  s!"JSON object is missing a required field `{name}`"

/-- The message wrapping a `TypeError`/`ValueError` from
`ProcessStartField.process` (the field name is always `start` here). -/
def startReadErrMsg (e : String) : String :=
  s!"Error \"{e}\" occurred, when reading field \"start\""

/-- The timezone-rejection message of `ProcessStartField.__call__`. -/
def tzErrMsg : String :=
  "Timezone information is not supported, but provided in the \"start\" field"

/-- Models `ProcessStartField.process(string, freq)`: parse the raw value with
`pd.Timestamp(string, freq=freq)` (whose outcome the `rawStart`
constructor carries; a timestamp-typed value re-parses to itself), then
normalize.  A non-timestamp value is the `TypeError` path. -/
def ProcessStartField.process (v : Value) (f : Freq) : Except String Timestamp :=
  match v with
  | .rawStart (.ok t) => .ok (normalize t f)
  | .rawStart (.error m) => .error m
  | .ts t => .ok (normalize t f)
  | _ => .error "could not convert input to Timestamp"

/-- Models `ProcessStartField.__call__` for the field `"start"`: `data[self.name]`
raises `KeyError` on an absent key; `TypeError`/`ValueError` from `process`
become a `GluonTSDataError`; a timezone-carrying result is rejected; the
field is overwritten in place with the normalized timestamp. -/
def ProcessStartField.call (f : Freq) (data : Entry) : Except PyError Entry :=
  match List.lookup "start" data with
  | none => .error (.keyError "start")
  | some raw =>
      match ProcessStartField.process raw f with
      | .error e => .error (.dataError (startReadErrMsg e))
      | .ok value =>
          if value.tz.isSome then .error (.dataError tzErrMsg)
          else .ok (setKey data "start" (.ts value))

/-- Models `ProcessTimeSeriesField.__call__`: coerce the named field.
`req_ndim = 1` if static else `2`; dtype int32 if categorical else float32;
a rank one below the expected one gets a leading axis; any other mismatch
raises the bad-shape `GluonTSDataError` (whose message interpolates
`ddiff`, exactly as the source does); an absent (or `None`-valued) field
passes through when optional and raises the missing-field error when
required. -/
def ProcessTimeSeriesField.call (name : String)
    (is_required is_static is_cat : Bool) (data : Entry) :
    Except PyError Entry :=
  let req_ndim : ℕ := if is_static then 1 else 2
  let dtype : DType := if is_cat then .int32 else .float32
  match pyGet data name with
  | some v =>
      match asNd v with
      | some value =>
          let ddiff : ℤ := (req_ndim : ℤ) - (value.ndim : ℤ)
          if ddiff = 1 then
            .ok (setKey data name (.npArr dtype value.expandDims0))
          else if ddiff ≠ 0 then
            .error (.dataError (badShapeMsg req_ndim ddiff))
          else
            .ok (setKey data name (.npArr dtype value))
      | none => .error (.typeError s!"could not convert field {name} to an array")
  | none =>
      if !is_required then .ok data
      else .error (.dataError (missingFieldMsg name))

/-- Models `ProcessDataEntry.__call__`: the fixed six-stage pipeline, in source
order, failing fast on the first stage that raises. -/
def ProcessDataEntry.call (freq : Freq) (one_dim_target : Bool)
    (data : Entry) : Except PyError Entry := do
  let d1 ← ProcessStartField.call freq data
  let d2 ← ProcessTimeSeriesField.call "target" true one_dim_target false d1
  let d3 ← ProcessTimeSeriesField.call "feat_dynamic_cat" false false true d2
  let d4 ← ProcessTimeSeriesField.call "feat_dynamic_real" false false false d3
  let d5 ← ProcessTimeSeriesField.call "feat_static_cat" false true true d4
  let d6 ← ProcessTimeSeriesField.call "feat_static_real" false true false d5
  return d6

/-! ## `ListDataset` -/

/-- The memory-backed dataset: the stored list of validated records. -/
structure ListDataset where
  list_data : List Entry
deriving DecidableEq

/-- The list comprehension `[process(data) for data in data_iter]`:
process left to right, propagating the first exception. -/
def processAll (freq : Freq) (one_dim_target : Bool) :
    List Entry → Except PyError (List Entry)
  | [] => .ok []
  | d :: ds =>
      match ProcessDataEntry.call freq one_dim_target d with
      | .error e => .error e
      | .ok r =>
          match processAll freq one_dim_target ds with
          | .error e => .error e
          | .ok rs => .ok (r :: rs)

/-- Models `ListDataset.__init__`: validate every record eagerly; the object
exists only if every record processed. -/
def ListDataset.construct (data_iter : List Entry) (freq : Freq)
    (one_dim_target : Bool) : Except PyError ListDataset :=
  (processAll freq one_dim_target data_iter).map ListDataset.mk

/-- The loop body of `ListDataset.__iter__`: `enumerate(self.list_data,
start=1)` with `data["source"] = SourceContext(source="list_data", row=i)`
mutating each stored dict in place. -/
def withSource : List Entry → ℕ → List Entry
  | [], _ => []
  | d :: ds, i =>
      setKey d "source" (.src ⟨"list_data", i⟩) :: withSource ds (i + 1)

/-- Models `ListDataset.__iter__`, run to exhaustion: the yielded entries together
with the dataset as it stands afterwards (iteration mutates the stored
dicts, which remain shared with the yielded ones). -/
def ListDataset.iterate (ds : ListDataset) : List Entry × ListDataset :=
  let ys := withSource ds.list_data 1
  (ys, ⟨ys⟩)

/-! ## Serializer (`serialize_data_entry`) -/

/-- A cell of a serialized array: a number, or the literal `"NaN"` marker
string. -/
inductive JsonCell where
  | num (q : ℚ)
  | nanStr
deriving DecidableEq, Repr

/-- JSON-safe values produced by the serializer: strings, or (rectangular)
arrays whose cells are numbers or the `"NaN"` marker string. -/
inductive JsonValue where
  | str (s : String)
  | arr (shape : List ℕ) (cells : List JsonCell)
deriving DecidableEq, Repr

/-- Models `field.astype(np.object_); field[nan_ix] = "NaN"; field.tolist()`:
every NaN cell becomes the literal string marker `"NaN"`. -/
def markNaN : PyNum → JsonCell
  | .fin q => .num q
  | .nan => .nanStr

/-- Python `str()` of the non-array values a serialized entry can hold.
The exact rendering of timestamps and raw values is irrelevant to the
checked claims; what matters is which constructor the value had. -/
def pyStr : Value → String
  | .null => "None"
  | .ts t => s!"{t.year}-{t.month}-{t.day} ns={t.ns}"
  | .src c => s!"SourceContext(source=\x27{c.source}\x27, row={c.row})"
  | .vStr s => s
  | .rawStart _ => "<raw start value>"
  | .rawArr _ => "<json list>"
  | .npArr _ _ => "<ndarray>"

/-- Models `serialize_field`: numpy arrays become nested lists with `"NaN"`
markers; every other value becomes `str(field)`. -/
def serialize_field : Value → JsonValue
  | .npArr _ a => .arr a.shape (a.elems.map markNaN)
  | v => .str (pyStr v)

/-- Models `serialize_data_entry`: keep the fields whose value `is not None`, in
insertion order, serializing each. -/
def serialize_data_entry (data : Entry) : List (String × JsonValue) :=
  (data.filter (fun kv => kv.2 != Value.null)).map
    (fun kv => (kv.1, serialize_field kv.2))

/-- Strict lexicographic order on the calendar dates of two timestamps. -/
def dateLt (a b : Timestamp) : Prop :=
  a.year < b.year ∨
    (a.year = b.year ∧
      (a.month < b.month ∨ (a.month = b.month ∧ a.day < b.day)))

/-! ## Concrete inputs used by the claim counterexamples and witnesses -/

/-- A validated entry as `save_datasets` sees it while iterating a dataset:
it carries the `source` provenance attached by `__iter__`. -/
def c1entry : Entry :=
  [("start", Value.ts ⟨2014, 9, 7, 0, none⟩),
   ("target", Value.npArr .float32 ⟨[2], [.fin 1, .nan]⟩),
   ("source", Value.src ⟨"list_data", 1⟩)]

/-- One raw record: start 2014-09-07, univariate target of length 2. -/
def c4raw : List Entry :=
  [[("start", Value.rawStart (.ok ⟨2014, 9, 7, 0, none⟩)),
    ("target", Value.rawArr ⟨[2], [.fin 1, .fin 2]⟩)]]

/-- The `ListDataset` that `ListDataset.construct c4raw .D true` yields:
the stored record holds the normalized start and the coerced target, and
no `source` key yet. -/
def c4ds : ListDataset :=
  ⟨[[("start", Value.ts ⟨2014, 9, 7, 0, none⟩),
     ("target", Value.npArr .float32 ⟨[2], [.fin 1, .fin 2]⟩)]]⟩

/-- A valid raw record (start and target present). -/
def c8good : Entry :=
  [("start", Value.rawStart (.ok ⟨2014, 9, 7, 0, none⟩)),
   ("target", Value.rawArr ⟨[2], [.fin 1, .fin 2]⟩)]

/-- A raw record missing the required `target` field. -/
def c8bad : Entry :=
  [("start", Value.rawStart (.ok ⟨2014, 9, 7, 0, none⟩))]

/-! ## Calendar lemmas -/

theorem leapCount_step (y : ℤ) :
    leapCount y - leapCount (y - 1) = if isLeap y then 1 else 0 := by
  have key : leapCount y - leapCount (y - 1)
      = if (y % 4 = 0 ∧ ¬ y % 100 = 0) ∨ y % 400 = 0 then 1 else 0 := by
    unfold leapCount
    split <;> omega
  rw [key]
  unfold isLeap
  by_cases h : (y % 4 = 0 ∧ ¬ y % 100 = 0) ∨ y % 400 = 0 <;> simp [h]

theorem dby_step (y : ℤ) :
    daysBeforeYear (y + 1) = daysBeforeYear y + (yearLenB (isLeap y) : ℤ) := by
  unfold daysBeforeYear yearLenB leapCount
  cases hb : isLeap y <;>
    simp only [isLeap, decide_eq_false_iff_not, decide_eq_true_eq] at hb <;>
    simp <;> omega

theorem dby_mono (y z : ℤ) (h : y < z) :
    daysBeforeYear y + (yearLenB (isLeap y) : ℤ) ≤ daysBeforeYear z := by
  have hs := dby_step y
  rw [← hs]
  unfold daysBeforeYear leapCount
  omega

theorem dbm_one (b : Bool) : daysBeforeMonth b 1 = 0 := by
  cases b <;> rfl

theorem dbm_step (b : Bool) (m : ℕ) (h1 : 1 ≤ m) (h2 : m ≤ 11) :
    daysBeforeMonth b (m + 1) = daysBeforeMonth b m + daysInMonthB b m := by
  interval_cases m <;> cases b <;> rfl

theorem dbm_bound (b : Bool) (m : ℕ) (h1 : 1 ≤ m) (h2 : m ≤ 12) :
    daysBeforeMonth b m + daysInMonthB b m ≤ yearLenB b := by
  interval_cases m <;> cases b <;> decide

theorem dbm_mono (b : Bool) (m₁ m₂ : ℕ) (h1 : 1 ≤ m₁) (h : m₁ < m₂) (h2 : m₂ ≤ 12) :
    daysBeforeMonth b m₁ + daysInMonthB b m₁ ≤ daysBeforeMonth b m₂ := by
  have h1' : m₁ ≤ 11 := by omega
  interval_cases m₁ <;> interval_cases m₂ <;> cases b <;> decide

theorem dbm_last (b : Bool) : daysBeforeMonth b 12 + daysInMonthB b 12 = yearLenB b := by
  cases b <;> rfl

theorem dim_pos (b : Bool) (m : ℕ) : 1 ≤ daysInMonthB b m := by
  unfold daysInMonthB
  split
  · split <;> omega
  · split <;> omega

theorem dim12 (b : Bool) : daysInMonthB b 12 = 31 := by
  cases b <;> rfl

theorem toDays_lt_of_dateLt (a b : Timestamp) (ha : a.Valid) (hb : b.Valid)
    (h : dateLt a b) : a.toDays < b.toDays := by
  obtain ⟨ham1, ham2, had1, had2, -⟩ := ha
  obtain ⟨hbm1, hbm2, hbd1, hbd2, -⟩ := hb
  unfold daysInMonth at had2 hbd2
  unfold Timestamp.toDays
  rcases h with hy | ⟨hy, hm | ⟨hm, hd⟩⟩
  · have h1 := dbm_bound (isLeap a.year) a.month ham1 ham2
    have h2 := dby_mono a.year b.year hy
    have h3 : (0:ℤ) ≤ (daysBeforeMonth (isLeap b.year) b.month : ℤ) := by positivity
    omega
  · rw [hy]
    have h1 := dbm_mono (isLeap b.year) a.month b.month ham1 hm hbm2
    rw [hy] at had2
    omega
  · rw [hy, hm]
    omega

theorem dates_total (a b : Timestamp) :
    dateLt a b ∨ (a.year = b.year ∧ a.month = b.month ∧ a.day = b.day) ∨
      dateLt b a := by
  unfold dateLt
  omega

theorem toDays_congr (a b : Timestamp) (hy : a.year = b.year)
    (hm : a.month = b.month) (hd : a.day = b.day) : a.toDays = b.toDays := by
  unfold Timestamp.toDays
  rw [hy, hm, hd]

theorem dates_le_of_toDays_le (a b : Timestamp) (ha : a.Valid) (hb : b.Valid)
    (h : a.toDays ≤ b.toDays) :
    dateLt a b ∨ (a.year = b.year ∧ a.month = b.month ∧ a.day = b.day) := by
  rcases dates_total a b with h1 | h1 | h1
  · exact .inl h1
  · exact .inr h1
  · exact absurd (toDays_lt_of_dateLt b a hb ha h1) (by omega)

theorem prevDay_toDays (t : Timestamp) (hv : t.Valid) :
    t.prevDay.toDays = t.toDays - 1 := by
  obtain ⟨hm1, hm2, hd1, hd2, -⟩ := hv
  unfold daysInMonth at hd2
  unfold Timestamp.prevDay
  split
  · unfold Timestamp.toDays
    simp only
    omega
  · split
    · rename_i hd hm
      unfold Timestamp.toDays daysInMonth
      simp only
      have hs := dbm_step (isLeap t.year) (t.month - 1) (by omega) (by omega)
      rw [Nat.sub_add_cancel (by omega)] at hs
      omega
    · rename_i hd hm
      have hmeq : t.month = 1 := by omega
      have hdeq : t.day = 1 := by omega
      unfold Timestamp.toDays
      simp only
      have hs := dby_step (t.year - 1)
      rw [sub_add_cancel] at hs
      have hl := dbm_last (isLeap (t.year - 1))
      have h12 := dim12 (isLeap (t.year - 1))
      rw [hmeq, hdeq, dbm_one]
      omega

theorem prevDay_valid (t : Timestamp) (hv : t.Valid) : t.prevDay.Valid := by
  obtain ⟨hm1, hm2, hd1, hd2, hns⟩ := hv
  unfold daysInMonth at hd2
  unfold Timestamp.prevDay
  split
  · exact ⟨hm1, hm2, by simp only; omega, by simpa [daysInMonth] using by omega, hns⟩
  · split
    · refine ⟨by simp only; omega, by simp only; omega, ?_, ?_, hns⟩
      · simp only
        exact dim_pos _ _
      · simp [daysInMonth]
    · refine ⟨by simp only; omega, by simp only; omega, by simp only; omega, ?_, hns⟩
      simp [daysInMonth, dim12]

theorem prevDay_ns (t : Timestamp) : t.prevDay.ns = t.ns := by
  unfold Timestamp.prevDay
  split
  · rfl
  · split <;> rfl

theorem prevDay_tz (t : Timestamp) : t.prevDay.tz = t.tz := by
  unfold Timestamp.prevDay
  split
  · rfl
  · split <;> rfl

theorem dim1 (b : Bool) : daysInMonthB b 1 = 31 := by
  cases b <;> rfl

theorem subDays_toDays (t : Timestamp) (hv : t.Valid) (k : ℕ) :
    (t.subDays k).toDays = t.toDays - k ∧ (t.subDays k).Valid ∧
      (t.subDays k).ns = t.ns ∧ (t.subDays k).tz = t.tz := by
  induction k with
  | zero => exact ⟨by simp [Timestamp.subDays], hv, rfl, rfl⟩
  | succ n ih =>
      obtain ⟨h1, h2, h3, h4⟩ := ih
      refine ⟨?_, prevDay_valid _ h2, ?_, ?_⟩
      · show (Timestamp.prevDay _).toDays = _
        rw [prevDay_toDays _ h2, h1]
        push_cast
        ring
      · show (Timestamp.prevDay _).ns = _
        rw [prevDay_ns, h3]
      · show (Timestamp.prevDay _).tz = _
        rw [prevDay_tz, h4]

theorem subDays_ns (t : Timestamp) (k : ℕ) : (t.subDays k).ns = t.ns := by
  induction k with
  | zero => rfl
  | succ n ih => show (Timestamp.prevDay _).ns = _; rw [prevDay_ns, ih]

theorem subDays_tz (t : Timestamp) (k : ℕ) : (t.subDays k).tz = t.tz := by
  induction k with
  | zero => rfl
  | succ n ih => show (Timestamp.prevDay _).tz = _; rw [prevDay_tz, ih]

/-! ## Specification of the timestamp normalizer -/

theorem zeroTime_valid (t : Timestamp) (hv : t.Valid) : t.zeroTime.Valid := by
  obtain ⟨hm1, hm2, hd1, hd2, -⟩ := hv
  refine ⟨hm1, hm2, hd1, hd2, ?_⟩
  show (0 : ℕ) < nsPerDay
  unfold nsPerDay
  omega

theorem zeroTime_toDays (t : Timestamp) : t.zeroTime.toDays = t.toDays := rfl

theorem monthEndRollback_tz (t : Timestamp) : (monthEndRollback t).tz = t.tz := by
  unfold monthEndRollback
  split
  · rfl
  · split <;> rfl

theorem monthEndRollback_ns (t : Timestamp) : (monthEndRollback t).ns = t.ns := by
  unfold monthEndRollback
  split
  · rfl
  · split <;> rfl

/-- A month-end rollback applied to a zeroed valid timestamp produces the
most recent zero-time month-end grid point not after the input: it is a
valid, zero-time, month-end timestamp, not after `t`, and no month-end
zero-time timestamp below `t` exceeds it. -/
theorem monthEndRollback_spec (t : Timestamp) (hv : t.Valid) :
    (monthEndRollback t.zeroTime).ns = 0 ∧
      (monthEndRollback t.zeroTime).tz = t.tz ∧
      (monthEndRollback t.zeroTime).Valid ∧
      isMonthEnd (monthEndRollback t.zeroTime) ∧
      (monthEndRollback t.zeroTime).tle t ∧
      (∀ s : Timestamp, s.Valid → isMonthEnd s → s.ns = 0 → s.tle t →
        s.tle (monthEndRollback t.zeroTime)) := by
  have hv0 := hv
  obtain ⟨hm1, hm2, hd1, hd2, hns⟩ := hv
  have hnsd : 0 < nsPerDay := by unfold nsPerDay; omega
  by_cases h1 : t.day = daysInMonth t.year t.month
  · have hr : monthEndRollback t.zeroTime = t.zeroTime := by
      simp [monthEndRollback, Timestamp.zeroTime, h1]
    rw [hr]
    refine ⟨rfl, rfl, zeroTime_valid t hv0, h1, Or.inr ⟨rfl, Nat.zero_le _⟩, ?_⟩
    intro s hsv hsme hsns hst
    have hzd : t.zeroTime.toDays = t.toDays := rfl
    have hzn : t.zeroTime.ns = 0 := rfl
    unfold Timestamp.tle at hst ⊢
    rw [hzd, hzn]
    omega
  · by_cases h2 : 2 ≤ t.month
    · have hr : monthEndRollback t.zeroTime
          = ⟨t.year, t.month - 1, daysInMonth t.year (t.month - 1), 0, t.tz⟩ := by
        simp [monthEndRollback, Timestamp.zeroTime, h1, h2]
      have e1 : (monthEndRollback t.zeroTime).year = t.year := by rw [hr]
      have e2 : (monthEndRollback t.zeroTime).month = t.month - 1 := by rw [hr]
      have e3 : (monthEndRollback t.zeroTime).day = daysInMonth t.year (t.month - 1) := by
        rw [hr]
      have e4 : (monthEndRollback t.zeroTime).ns = 0 := by rw [hr]
      have e5 : (monthEndRollback t.zeroTime).tz = t.tz := by rw [hr]
      have hrv : (monthEndRollback t.zeroTime).Valid := by
        unfold Timestamp.Valid
        rw [e1, e2, e3, e4]
        exact ⟨by omega, by omega, dim_pos _ _, le_refl _, hnsd⟩
      have hrme : isMonthEnd (monthEndRollback t.zeroTime) := by
        unfold isMonthEnd
        rw [e1, e2, e3]
      have hrlt : (monthEndRollback t.zeroTime).toDays < t.toDays := by
        apply toDays_lt_of_dateLt _ _ hrv hv0
        unfold dateLt
        rw [e1, e2]
        omega
      refine ⟨e4, e5, hrv, hrme, Or.inl hrlt, ?_⟩
      intro s hsv hsme hsns hst
      have hst2 : s.toDays ≤ t.toDays := by
        unfold Timestamp.tle at hst
        omega
      rcases dates_le_of_toDays_le s t hsv hv0 hst2 with hlt | ⟨hy, hm, hd⟩
      · rcases hlt with hy | ⟨hy, hm | ⟨hm, hd⟩⟩
        · refine Or.inl (toDays_lt_of_dateLt s _ hsv hrv ?_)
          unfold dateLt
          rw [e1]
          omega
        · by_cases hse : s.month = t.month - 1
          · have hdays : s.toDays = (monthEndRollback t.zeroTime).toDays := by
              apply toDays_congr
              · rw [e1]; exact hy
              · rw [e2]; exact hse
              · rw [e3]
                unfold isMonthEnd at hsme
                rw [hsme, hy, hse]
            exact Or.inr ⟨hdays, by rw [e4]; omega⟩
          · refine Or.inl (toDays_lt_of_dateLt s _ hsv hrv ?_)
            unfold dateLt
            rw [e1, e2]
            omega
        · exfalso
          unfold isMonthEnd at hsme
          rw [hy, hm] at hsme
          omega
      · exfalso
        unfold isMonthEnd at hsme
        rw [hy, hm] at hsme
        omega
    · have hmeq : t.month = 1 := by omega
      have hr : monthEndRollback t.zeroTime
          = ⟨t.year - 1, 12, 31, 0, t.tz⟩ := by
        simp [monthEndRollback, Timestamp.zeroTime, h1, h2]
      have e1 : (monthEndRollback t.zeroTime).year = t.year - 1 := by rw [hr]
      have e2 : (monthEndRollback t.zeroTime).month = 12 := by rw [hr]
      have e3 : (monthEndRollback t.zeroTime).day = 31 := by rw [hr]
      have e4 : (monthEndRollback t.zeroTime).ns = 0 := by rw [hr]
      have e5 : (monthEndRollback t.zeroTime).tz = t.tz := by rw [hr]
      have hrv : (monthEndRollback t.zeroTime).Valid := by
        unfold Timestamp.Valid
        rw [e1, e2, e3, e4]
        refine ⟨by omega, by omega, by omega, ?_, hnsd⟩
        rw [daysInMonth, dim12]
      have hrme : isMonthEnd (monthEndRollback t.zeroTime) := by
        unfold isMonthEnd
        rw [e1, e2, e3, daysInMonth, dim12]
      have hrlt : (monthEndRollback t.zeroTime).toDays < t.toDays := by
        apply toDays_lt_of_dateLt _ _ hrv hv0
        unfold dateLt
        rw [e1]
        omega
      refine ⟨e4, e5, hrv, hrme, Or.inl hrlt, ?_⟩
      intro s hsv hsme hsns hst
      have hst2 : s.toDays ≤ t.toDays := by
        unfold Timestamp.tle at hst
        omega
      have hdlt : t.day < 31 := by
        unfold daysInMonth at h1 hd2
        rw [hmeq] at h1 hd2
        rw [dim1] at h1 hd2
        omega
      rcases dates_le_of_toDays_le s t hsv hv0 hst2 with hlt | ⟨hy, hm, hd⟩
      · rcases hlt with hy | ⟨hy, hm | ⟨hm, hd⟩⟩
        · by_cases hye : s.year = t.year - 1
          · by_cases hme : s.month = 12
            · have hdays : s.toDays = (monthEndRollback t.zeroTime).toDays := by
                apply toDays_congr
                · rw [e1]; exact hye
                · rw [e2]; exact hme
                · rw [e3]
                  unfold isMonthEnd daysInMonth at hsme
                  rw [hsme, hme, hye, dim12]
              exact Or.inr ⟨hdays, by rw [e4]; omega⟩
            · refine Or.inl (toDays_lt_of_dateLt s _ hsv hrv ?_)
              unfold dateLt
              rw [e1, e2]
              obtain ⟨-, hsm2, -, -, -⟩ := hsv
              omega
          · refine Or.inl (toDays_lt_of_dateLt s _ hsv hrv ?_)
            unfold dateLt
            rw [e1]
            omega
        · exfalso
          obtain ⟨hsm1, -, -, -, -⟩ := hsv
          omega
        · exfalso
          unfold isMonthEnd daysInMonth at hsme
          rw [hm, hmeq, dim1] at hsme
          omega
      · exfalso
        unfold isMonthEnd at hsme
        rw [hy, hm] at hsme
        omega

/-- The Sunday rollback applied to a zeroed valid timestamp produces the
most recent zero-time Sunday not after the input. -/
theorem sundayRollback_spec (t : Timestamp) (hv : t.Valid) :
    (sundayRollback t.zeroTime).ns = 0 ∧
      (sundayRollback t.zeroTime).tz = t.tz ∧
      (sundayRollback t.zeroTime).Valid ∧
      isSunday (sundayRollback t.zeroTime) ∧
      (sundayRollback t.zeroTime).tle t ∧
      (∀ s : Timestamp, s.Valid → isSunday s → s.ns = 0 → s.tle t →
        s.tle (sundayRollback t.zeroTime)) := by
  have hzv := zeroTime_valid t hv
  obtain ⟨hsd, hsv, hsns, hstz⟩ :=
    subDays_toDays t.zeroTime hzv t.zeroTime.weekday0
  have hw : (t.zeroTime.weekday0 : ℤ) = (t.toDays + 4) % 7 := by
    unfold Timestamp.weekday0
    rw [zeroTime_toDays]
    omega
  have hrd : (sundayRollback t.zeroTime).toDays = t.toDays - (t.toDays + 4) % 7 := by
    unfold sundayRollback
    rw [hsd, zeroTime_toDays, hw]
  refine ⟨by unfold sundayRollback; rw [hsns]; rfl,
    by unfold sundayRollback; rw [hstz]; rfl, by unfold sundayRollback; exact hsv, ?_, ?_, ?_⟩
  · unfold isSunday Timestamp.weekday0
    rw [hrd]
    omega
  · unfold Timestamp.tle
    rw [hrd]
    have h0 : (sundayRollback t.zeroTime).ns = 0 := by
      unfold sundayRollback; rw [hsns]; rfl
    omega
  · intro s hsv2 hsme hsns2 hst
    have hsun : (s.toDays + 4) % 7 = 0 := by
      unfold isSunday Timestamp.weekday0 at hsme
      omega
    unfold Timestamp.tle at hst ⊢
    rw [hrd]
    have h0 : (sundayRollback t.zeroTime).ns = 0 := by
      unfold sundayRollback; rw [hsns]; rfl
    omega

theorem zeroTime_of_ns0 (t : Timestamp) (h : t.ns = 0) : t.zeroTime = t := by
  unfold Timestamp.zeroTime
  cases t
  simp_all

theorem monthEndRollback_fix (t : Timestamp) (h : isMonthEnd t) :
    monthEndRollback t = t := by
  unfold isMonthEnd at h
  unfold monthEndRollback
  rw [if_pos h]

theorem sundayRollback_fix (t : Timestamp) (h : isSunday t) :
    sundayRollback t = t := by
  unfold isSunday at h
  unfold sundayRollback
  rw [h]
  rfl

theorem floorTo_twice (t : Timestamp) (p : ℕ) (hp : 0 < p) :
    (t.floorTo p).floorTo p = t.floorTo p := by
  unfold Timestamp.floorTo
  have h : t.ns / p * p / p = t.ns / p := Nat.mul_div_cancel _ hp
  simp only [h]

theorem normalize_M (t : Timestamp) : normalize t .M = monthEndRollback t.zeroTime := rfl

theorem normalize_W (t : Timestamp) : normalize t .W = sundayRollback t.zeroTime := rfl

theorem normalize_B (t : Timestamp) : normalize t .B = t := rfl

theorem normalize_D (t : Timestamp) : normalize t .D = t.floorTo nsPerDay := rfl

theorem normalize_H (t : Timestamp) : normalize t .H = t.floorTo nsPerHour := rfl

theorem normalize_Min (t : Timestamp) : normalize t .Min = t.floorTo nsPerMinute := rfl

theorem normalize_S (t : Timestamp) : normalize t .S = t.floorTo nsPerSecond := rfl

/-- Normalization never touches the timezone tag of the parsed timestamp. -/
theorem normalize_tz (t : Timestamp) (f : Freq) : (normalize t f).tz = t.tz := by
  cases f
  case M =>
      rw [normalize_M, monthEndRollback_tz]
      rfl
  case W =>
      rw [normalize_W]
      show (t.zeroTime.subDays _).tz = t.tz
      rw [subDays_tz]
      rfl
  case B => rfl
  case D => rfl
  case H => rfl
  case Min => rfl
  case S => rfl

/-! ## Claim C5 and C6: the timestamp normalizer -/

/-- C5: for every valid, timezone-free timestamp and every frequency: if
the frequency's canonical name is month-end (`M`) or week-ending-Sunday
(`W-SUN`), normalization zeroes the sub-day time components and rolls the
timestamp backward to the most recent frequency-grid point (it lands on
the grid, at or before the input, above every zero-time grid point that is
at or before the input); if the frequency is business-day (`B`), the
timestamp is returned unchanged; for every other frequency the timestamp
is floored to the frequency's period boundary (the nanosecond-of-day
becomes the greatest multiple of the period not exceeding the input's,
and the date is unchanged). -/
theorem c5_normalize_branch_behavior (t : Timestamp) (f : Freq)
    (hv : t.Valid) (_htz : t.tz = none) :
    ((f.canonicalName = "M" ∨ f.canonicalName = "W-SUN") →
        normalize t f = f.rollback t.zeroTime ∧
        (normalize t f).ns = 0 ∧
        onGrid f (normalize t f) ∧
        (normalize t f).tle t ∧
        (∀ s : Timestamp, s.Valid → onGrid f s → s.ns = 0 → s.tle t →
          s.tle (normalize t f))) ∧
      (f.canonicalName = "B" → normalize t f = t) ∧
      (f.canonicalName ≠ "M" ∧ f.canonicalName ≠ "W-SUN" ∧ f.canonicalName ≠ "B" →
        normalize t f = t.floorTo f.period ∧
        f.period ∣ (normalize t f).ns ∧
        (normalize t f).ns ≤ t.ns ∧
        (normalize t f).toDays = t.toDays ∧
        (∀ n : ℕ, f.period ∣ n → n ≤ t.ns → n ≤ (normalize t f).ns)) := by
  cases f
  case M =>
      refine ⟨fun _ => ?_, fun h => absurd h (by decide), fun h => absurd rfl h.1⟩
      obtain ⟨h1, -, -, h4, h5, h6⟩ := monthEndRollback_spec t hv
      exact ⟨rfl, h1, h4, h5, h6⟩
  case W =>
      refine ⟨fun _ => ?_, fun h => absurd h (by decide), fun h => absurd rfl h.2.1⟩
      obtain ⟨h1, -, -, h4, h5, h6⟩ := sundayRollback_spec t hv
      exact ⟨rfl, h1, h4, h5, h6⟩
  case B =>
      exact ⟨fun h => absurd h (by decide), fun _ => rfl, fun h => absurd rfl h.2.2⟩
  case D =>
      refine ⟨fun h => absurd h (by decide), fun h => absurd h (by decide), fun _ => ?_⟩
      refine ⟨rfl, dvd_mul_left _ _, Nat.div_mul_le_self _ _, rfl, ?_⟩
      intro n hd hle
      have hd2 : nsPerDay ∣ n := hd
      obtain ⟨c, rfl⟩ := hd2
      show nsPerDay * c ≤ t.ns / nsPerDay * nsPerDay
      have hle2 : nsPerDay * c ≤ t.ns := hle
      unfold nsPerDay at hle2 ⊢
      omega
  case H =>
      refine ⟨fun h => absurd h (by decide), fun h => absurd h (by decide), fun _ => ?_⟩
      refine ⟨rfl, dvd_mul_left _ _, Nat.div_mul_le_self _ _, rfl, ?_⟩
      intro n hd hle
      have hd2 : nsPerHour ∣ n := hd
      obtain ⟨c, rfl⟩ := hd2
      show nsPerHour * c ≤ t.ns / nsPerHour * nsPerHour
      have hle2 : nsPerHour * c ≤ t.ns := hle
      unfold nsPerHour at hle2 ⊢
      omega
  case Min =>
      refine ⟨fun h => absurd h (by decide), fun h => absurd h (by decide), fun _ => ?_⟩
      refine ⟨rfl, dvd_mul_left _ _, Nat.div_mul_le_self _ _, rfl, ?_⟩
      intro n hd hle
      have hd2 : nsPerMinute ∣ n := hd
      obtain ⟨c, rfl⟩ := hd2
      show nsPerMinute * c ≤ t.ns / nsPerMinute * nsPerMinute
      have hle2 : nsPerMinute * c ≤ t.ns := hle
      unfold nsPerMinute at hle2 ⊢
      omega
  case S =>
      refine ⟨fun h => absurd h (by decide), fun h => absurd h (by decide), fun _ => ?_⟩
      refine ⟨rfl, dvd_mul_left _ _, Nat.div_mul_le_self _ _, rfl, ?_⟩
      intro n hd hle
      have hd2 : nsPerSecond ∣ n := hd
      obtain ⟨c, rfl⟩ := hd2
      show nsPerSecond * c ≤ t.ns / nsPerSecond * nsPerSecond
      have hle2 : nsPerSecond * c ≤ t.ns := hle
      unfold nsPerSecond at hle2 ⊢
      omega

/-- Witness for C5 at 2014-09-15 (with a nonzero time of day) under the
month-end frequency. -/
theorem c5_witness :
    (normalize ⟨2014, 9, 15, 55, none⟩ .M).tle ⟨2014, 9, 15, 55, none⟩ :=
  ((c5_normalize_branch_behavior ⟨2014, 9, 15, 55, none⟩ .M (by decide) rfl).1
    (Or.inl rfl)).2.2.2.1

/-- C6: timestamp normalization is idempotent: normalizing an already
normalized timestamp under the same frequency is the identity. -/
theorem c6_normalize_idempotent (t : Timestamp) (f : Freq) (hv : t.Valid) :
    normalize (normalize t f) f = normalize t f := by
  cases f
  case M =>
      obtain ⟨hn0, -, -, hme, -, -⟩ := monthEndRollback_spec t hv
      rw [normalize_M, normalize_M, zeroTime_of_ns0 _ hn0, monthEndRollback_fix _ hme]
  case W =>
      obtain ⟨hn0, -, -, hsun, -, -⟩ := sundayRollback_spec t hv
      rw [normalize_W, normalize_W, zeroTime_of_ns0 _ hn0, sundayRollback_fix _ hsun]
  case B => rfl
  case D =>
      rw [normalize_D, normalize_D]
      exact floorTo_twice t nsPerDay (by unfold nsPerDay; omega)
  case H =>
      rw [normalize_H, normalize_H]
      exact floorTo_twice t nsPerHour (by unfold nsPerHour; omega)
  case Min =>
      rw [normalize_Min, normalize_Min]
      exact floorTo_twice t nsPerMinute (by unfold nsPerMinute; omega)
  case S =>
      rw [normalize_S, normalize_S]
      exact floorTo_twice t nsPerSecond (by unfold nsPerSecond; omega)

/-- Witness for C6 under the weekly frequency at a mid-week timestamp. -/
theorem c6_witness :
    normalize (normalize ⟨2014, 9, 10, 55, none⟩ .W) .W
      = normalize ⟨2014, 9, 10, 55, none⟩ .W :=
  c6_normalize_idempotent ⟨2014, 9, 10, 55, none⟩ .W (by decide)

/-! ## Claim C7: timezone-carrying start values are rejected -/

/-- C7: for every frequency and every entry whose raw `start` value parses
to a timestamp carrying timezone offset information, `ProcessStartField`
fails with the `GluonTSDataError` naming the `start` field, regardless of
the frequency. -/
theorem c7_timezone_rejected (data : Entry) (f : Freq) (t : Timestamp) (z : ℤ)
    (h : List.lookup "start" data = some (.rawStart (.ok t)))
    (hz : t.tz = some z) :
    ProcessStartField.call f data = .error (.dataError tzErrMsg) := by
  unfold ProcessStartField.call
  rw [h]
  show (if (normalize t f).tz.isSome then _ else _) = _
  rw [normalize_tz, hz]
  rfl

/-- Witness for C7: a start value parsed at UTC+60min under daily
frequency. -/
theorem c7_witness :
    ProcessStartField.call .D
        [("start", Value.rawStart (.ok ⟨2014, 9, 7, 0, some 60⟩))]
      = .error (.dataError tzErrMsg) :=
  c7_timezone_rejected _ .D ⟨2014, 9, 7, 0, some 60⟩ 60 rfl rfl

/-! ## Claim C9: a missing `start` key raises `KeyError`, not the
`GluonTSDataError` -/

/-- C9: `ProcessStartField.__call__` indexes `data[self.name]` directly and
only catches `TypeError`/`ValueError`, so an entry with no `start` key
raises a plain `KeyError` (not a `GluonTSDataError`), for every
frequency. -/
theorem c9_missing_start_keyerror (data : Entry) (f : Freq)
    (h : List.lookup "start" data = none) :
    ProcessStartField.call f data = .error (.keyError "start") := by
  unfold ProcessStartField.call
  rw [h]

/-- Witness for C9: an entry carrying only a target. -/
theorem c9_witness :
    ProcessStartField.call .D [("target", Value.rawArr ⟨[1], [.fin 1]⟩)]
      = .error (.keyError "start") :=
  c9_missing_start_keyerror _ .D rfl

/-! ## Claim C10: an explicit null value behaves like an absent field -/

/-- C10: a field bound to an explicit null is treated by
`ProcessTimeSeriesField` exactly like an absent field: an optional field
passes the entry through unchanged (the null-valued key stays), and a
required field raises the missing-required-field `GluonTSDataError` (the
same error an absent key raises), never a type or rank error. -/
theorem c10_null_treated_as_absent (data data2 : Entry) (name : String)
    (is_static is_cat : Bool)
    (h : List.lookup name data = some Value.null)
    (h2 : List.lookup name data2 = none) :
    ProcessTimeSeriesField.call name false is_static is_cat data = .ok data ∧
      ProcessTimeSeriesField.call name true is_static is_cat data
        = .error (.dataError (missingFieldMsg name)) ∧
      ProcessTimeSeriesField.call name true is_static is_cat data2
        = .error (.dataError (missingFieldMsg name)) := by
  have hg : pyGet data name = none := by unfold pyGet; rw [h]
  have hg2 : pyGet data2 name = none := by unfold pyGet; rw [h2]
  refine ⟨?_, ?_, ?_⟩ <;> unfold ProcessTimeSeriesField.call <;>
    simp only [hg, hg2] <;> rfl

/-- Witness for C10: `feat_dynamic_real` explicitly bound to null passes
through unchanged when optional. -/
theorem c10_witness :
    ProcessTimeSeriesField.call "feat_dynamic_real" false false false
        [("feat_dynamic_real", Value.null)]
      = .ok [("feat_dynamic_real", Value.null)] :=
  (c10_null_treated_as_absent [("feat_dynamic_real", Value.null)] []
    "feat_dynamic_real" false false rfl rfl).1

/-! ## Claims C2 and C3: rank coercion and the bad-shape message -/

/-- C2 counterexample: a 0-D array (a bare scalar) supplied for the static
field `feat_static_real` does not fail with a rank-mismatch `DataError` as
the claim states — it is promoted to the 1-D array of shape `(1,)`. -/
theorem c2_counterexample :
    ProcessTimeSeriesField.call "feat_static_real" false true false
        [("feat_static_real", Value.rawArr ⟨[], [.fin 5]⟩)]
      = .ok [("feat_static_real", Value.npArr .float32 ⟨[1], [.fin 5]⟩)] := by
  rfl

/-- C2 amended: with `req = 1` for static and `2` for dynamic fields, an
array of rank `req - 1` (so a 1-D array for a 2-D dynamic field, but also
a 0-D scalar for a static field) is promoted by inserting a leading axis
of size 1 — shape `(T)` becomes `(1, T)`; an array of rank `req` is taken
as-is; every other rank (0-D for a dynamic field, 3-D anywhere, 2-D for a
static field, ...) fails with the rank-mismatch `DataError`. -/
theorem c2_rank_coercion (name : String) (is_required is_static is_cat : Bool)
    (data : Entry) (v : Value) (a : NdArr) (req : ℕ) (dt : DType)
    (hv : pyGet data name = some v) (ha : asNd v = some a)
    (hreq : req = if is_static then 1 else 2)
    (hdt : dt = if is_cat then DType.int32 else DType.float32) :
    (a.ndim + 1 = req →
        ProcessTimeSeriesField.call name is_required is_static is_cat data
          = .ok (setKey data name (.npArr dt a.expandDims0)) ∧
        a.expandDims0.ndim = a.ndim + 1 ∧
        a.expandDims0.shape = 1 :: a.shape) ∧
      (a.ndim = req →
        ProcessTimeSeriesField.call name is_required is_static is_cat data
          = .ok (setKey data name (.npArr dt a))) ∧
      (a.ndim + 1 ≠ req ∧ a.ndim ≠ req →
        ProcessTimeSeriesField.call name is_required is_static is_cat data
          = .error (.dataError (badShapeMsg req ((req : ℤ) - (a.ndim : ℤ))))) := by
  have hcall : ProcessTimeSeriesField.call name is_required is_static is_cat data
      = (if (req : ℤ) - (a.ndim : ℤ) = 1 then
          Except.ok (setKey data name (.npArr dt a.expandDims0))
        else if (req : ℤ) - (a.ndim : ℤ) ≠ 0 then
          Except.error (.dataError (badShapeMsg req ((req : ℤ) - (a.ndim : ℤ))))
        else
          Except.ok (setKey data name (.npArr dt a))) := by
    subst hreq
    subst hdt
    unfold ProcessTimeSeriesField.call
    simp only [hv, ha]
  refine ⟨fun h1 => ⟨?_, rfl, rfl⟩, fun h2 => ?_, fun h3 => ?_⟩ <;> rw [hcall]
  · rw [if_pos (show (req : ℤ) - (a.ndim : ℤ) = 1 by omega)]
  · rw [if_neg (show ¬ ((req : ℤ) - (a.ndim : ℤ) = 1) by omega)]
    rw [if_neg (show ¬ ((req : ℤ) - (a.ndim : ℤ) ≠ 0) by omega)]
  · rw [if_neg (show ¬ ((req : ℤ) - (a.ndim : ℤ) = 1) by omega)]
    rw [if_pos (show (req : ℤ) - (a.ndim : ℤ) ≠ 0 by omega)]

/-- Witness for C2: a flat sequence of length 3 supplied for the dynamic
field `feat_dynamic_real` is promoted to shape `(1, 3)`. -/
theorem c2_witness :
    ProcessTimeSeriesField.call "feat_dynamic_real" false false false
        [("feat_dynamic_real", Value.rawArr ⟨[3], [.fin 1, .fin 2, .fin 3]⟩)]
      = .ok [("feat_dynamic_real",
          Value.npArr .float32 ⟨[1, 3], [.fin 1, .fin 2, .fin 3]⟩)] :=
  ((c2_rank_coercion "feat_dynamic_real" false false false
      [("feat_dynamic_real", Value.rawArr ⟨[3], [.fin 1, .fin 2, .fin 3]⟩)]
      (Value.rawArr ⟨[3], [.fin 1, .fin 2, .fin 3]⟩)
      ⟨[3], [.fin 1, .fin 2, .fin 3]⟩ 2 .float32
      rfl rfl rfl rfl).1 (by decide)).1

/-! ## Claim C1: the serializer and the `source` field -/

/-- C1 counterexample: `serialize_data_entry` does not drop the `source`
key — the serialized mapping still contains it (as the `str()` rendering
of the `SourceContext`), because the dict comprehension only drops fields
whose value `is None`. -/
theorem c1_counterexample :
    List.lookup "source" (serialize_data_entry c1entry)
      = some (.str (pyStr (Value.src ⟨"list_data", 1⟩))) := by
  rfl

/-- C1 amended: `serialize_data_entry` drops exactly the fields bound to
`None`; an entry that carries a `source` context keeps that key, mapped to
the string rendering of the `SourceContext` — so the lines `save_datasets`
writes for entries carrying provenance do contain a `source` field. -/
theorem serialize_lookup (data : Entry) (k0 : String) (v0 : Value)
    (h : List.lookup k0 data = some v0) (hnn : v0 ≠ Value.null) :
    List.lookup k0 (serialize_data_entry data) = some (serialize_field v0) := by
  induction data with
  | nil => simp at h
  | cons hd tl ih =>
      obtain ⟨k, v⟩ := hd
      unfold serialize_data_entry at ih ⊢
      rw [List.filter_cons]
      by_cases hk : k0 = k
      · subst hk
        simp only [List.lookup, beq_self_eq_true] at h
        injection h with h
        subst h
        rw [if_pos (by simpa [bne_iff_ne] using hnn)]
        simp [List.lookup]
      · have hbk : (k0 == k) = false := beq_eq_false_iff_ne.mpr hk
        simp only [List.lookup, hbk] at h
        by_cases hv : v = Value.null
        · subst hv
          rw [if_neg (by simp [bne_iff_ne])]
          exact ih h
        · rw [if_pos (by simpa [bne_iff_ne] using hv)]
          simp only [List.map_cons, List.lookup, hbk]
          exact ih h

theorem c1_source_field_retained (data : Entry) (c : SourceContext)
    (h : List.lookup "source" data = some (.src c)) :
    List.lookup "source" (serialize_data_entry data)
      = some (.str (pyStr (.src c))) :=
  serialize_lookup data "source" (.src c) h (by simp)

/-- Witness for the amended C1 at the concrete entry above. -/
theorem c1_witness :
    List.lookup "source" (serialize_data_entry c1entry)
      = some (.str (pyStr (.src ⟨"list_data", 1⟩))) :=
  c1_source_field_retained c1entry ⟨"list_data", 1⟩ rfl

/-! ## Dict and iteration lemmas for the `ListDataset` claims -/

theorem lookup_setKey_ne (e : Entry) (k k2 : String) (v : Value)
    (h : k2 ≠ k) : List.lookup k2 (setKey e k v) = List.lookup k2 e := by
  have hbk : (k2 == k) = false := beq_eq_false_iff_ne.mpr h
  induction e with
  | nil => simp [setKey, List.lookup, hbk]
  | cons hd tl ih =>
      obtain ⟨k3, v3⟩ := hd
      unfold setKey
      by_cases hk : k3 = k
      · subst hk
        rw [if_pos rfl]
        simp [List.lookup, hbk]
      · rw [if_neg hk]
        simp only [List.lookup]
        cases hb : (k2 == k3)
        · exact ih
        · rfl

theorem setKey_setKey (e : Entry) (k : String) (v w : Value) :
    setKey (setKey e k v) k w = setKey e k w := by
  induction e with
  | nil => simp [setKey]
  | cons hd tl ih =>
      obtain ⟨k3, v3⟩ := hd
      by_cases hk : k3 = k
      · subst hk
        simp [setKey]
      · simp [setKey, hk, ih]

theorem withSource_length (l : List Entry) (n : ℕ) :
    (withSource l n).length = l.length := by
  induction l generalizing n with
  | nil => rfl
  | cons hd tl ih => simp [withSource, ih]

theorem withSource_getElem (l : List Entry) (n i : ℕ) :
    (withSource l n)[i]?
      = (l[i]?).map (fun d => setKey d "source" (.src ⟨"list_data", n + i⟩)) := by
  induction l generalizing n i with
  | nil => simp [withSource]
  | cons hd tl ih =>
      cases i with
      | zero => simp [withSource]
      | succ j =>
          simp only [withSource, List.getElem?_cons_succ]
          have hn : n + 1 + j = n + (j + 1) := by omega
          rw [ih (n + 1) j, hn]

theorem withSource_withSource (l : List Entry) (n : ℕ) :
    withSource (withSource l n) n = withSource l n := by
  induction l generalizing n with
  | nil => rfl
  | cons hd tl ih => simp [withSource, setKey_setKey, ih]

/-- C3 (code bug): on a rank mismatch the raised `DataError` interpolates
`ddiff` — the *difference* between the expected and actual rank — where
the wording "got N dimensions" (and the spec) calls for the actual rank.
A 2-D target under univariate mode yields "expected 1 dimensions, got -1"
although the supplied array's rank is 2. -/
theorem c3_bad_shape_message_reports_difference :
    ProcessTimeSeriesField.call "target" true true false
        [("target", Value.rawArr ⟨[1, 2], [.fin 1, .fin 2]⟩)]
      = .error (.dataError
          "JSON array has bad shape - expected 1 dimensions, got -1") ∧
      NdArr.ndim ⟨[1, 2], [.fin 1, .fin 2]⟩ = 2 := by
  constructor
  · rfl
  · rfl

/-! ## Claim C4: iteration of a `ListDataset` mutates the stored records -/

/-- C4 counterexample: constructing a memory-backed dataset from one valid
record and then iterating it once changes the stored record list —
`__iter__` assigns `data["source"]` on each stored dict in place, so the
list is not read-only after construction. -/
theorem c4_counterexample :
    ListDataset.construct c4raw .D true = .ok c4ds ∧
      (c4ds.iterate.2.list_data ≠ c4ds.list_data ∧ c4ds.iterate.2 ≠ c4ds) := by
  refine ⟨by rfl, by decide, by decide⟩

/-- C4 amended: iterating a memory-backed dataset mutates each stored
record only by assigning its `source` key (to the provenance value for its
1-based position); the list length and every other key's binding are
unchanged, and iterating again reproduces exactly the same state and the
same yielded records. -/
theorem c4_iterate_mutates_only_source (ds : ListDataset) :
    ds.iterate.2.list_data.length = ds.list_data.length ∧
      (∀ i : ℕ, ∀ k : String, k ≠ "source" →
        (ds.iterate.2.list_data[i]?).map (List.lookup k)
          = (ds.list_data[i]?).map (List.lookup k)) ∧
      (∀ i : ℕ, ds.iterate.2.list_data[i]?
          = (ds.list_data[i]?).map
              (fun d => setKey d "source" (.src ⟨"list_data", i + 1⟩))) ∧
      ds.iterate.2.iterate = ds.iterate := by
  have hsnd : ds.iterate.2.list_data = withSource ds.list_data 1 := rfl
  refine ⟨?_, ?_, ?_, ?_⟩
  · rw [hsnd, withSource_length]
  · intro i k hk
    rw [hsnd, withSource_getElem]
    cases ds.list_data[i]? with
    | none => rfl
    | some d => simp [lookup_setKey_ne d "source" k _ hk]
  · intro i
    rw [hsnd, withSource_getElem]
    have : 1 + i = i + 1 := by omega
    rw [this]
  · have h2 : ds.iterate.2.iterate
        = (withSource (withSource ds.list_data 1) 1,
           ⟨withSource (withSource ds.list_data 1) 1⟩) := rfl
    rw [h2, withSource_withSource]
    rfl

/-- Witness for the amended C4: the `target` binding of the stored record
of `c4ds` is untouched by iteration. -/
theorem c4_witness :
    ((c4ds.iterate.2.list_data[0]?).map (List.lookup "target"))
      = ((c4ds.list_data[0]?).map (List.lookup "target")) :=
  (c4_iterate_mutates_only_source c4ds).2.1 0 "target" (by decide)

/-! ## Claim C8: eager validation and provenance of `ListDataset` -/

theorem processAll_append_err (f : Freq) (o : Bool) (pre : List Entry)
    (bad : Entry) (rest : List Entry) (e : PyError)
    (hpre : ∀ d ∈ pre, ∃ r, ProcessDataEntry.call f o d = .ok r)
    (hbad : ProcessDataEntry.call f o bad = .error e) :
    processAll f o (pre ++ bad :: rest) = .error e := by
  induction pre with
  | nil =>
      show processAll f o (bad :: rest) = .error e
      unfold processAll
      rw [hbad]
  | cons hd tl ih =>
      obtain ⟨r, hr⟩ := hpre hd (List.mem_cons_self hd tl)
      show processAll f o (hd :: (tl ++ bad :: rest)) = .error e
      unfold processAll
      rw [hr, ih (fun d hd2 => hpre d (List.mem_cons_of_mem _ hd2))]

theorem processAll_ok_get (f : Freq) (o : Bool) (l rs : List Entry)
    (h : processAll f o l = .ok rs) :
    ∀ i : ℕ, (l[i]?).map (ProcessDataEntry.call f o) = (rs[i]?).map Except.ok := by
  induction l generalizing rs with
  | nil =>
      unfold processAll at h
      injection h with h
      subst h
      intro i
      rfl
  | cons hd tl ih =>
      unfold processAll at h
      cases hp : ProcessDataEntry.call f o hd with
      | error e => rw [hp] at h; exact absurd h nofun
      | ok r =>
          rw [hp] at h
          cases hq : processAll f o tl with
          | error e => rw [hq] at h; exact absurd h nofun
          | ok rs2 =>
              rw [hq] at h
              injection h with h
              subst h
              intro i
              cases i with
              | zero => simp [hp]
              | succ j => simpa using ih rs2 hq j

/-- C8: constructing a memory-backed dataset validates every record
eagerly, in order, at construction time: if the records are a valid prefix
followed by an invalid record, construction fails with exactly that
record's `DataError` and no dataset value exists; if construction
succeeds, the stored list holds the validated records in original order
(position by position) and iteration yields them in order with provenance
`("list_data", 1-based row number)` attached. -/
theorem c8_eager_validation (f : Freq) (o : Bool) (pre : List Entry)
    (bad : Entry) (rest : List Entry) (e : PyError) (good : List Entry)
    (ds : ListDataset) :
    ((∀ d ∈ pre, ∃ r, ProcessDataEntry.call f o d = .ok r) →
        ProcessDataEntry.call f o bad = .error e →
        ListDataset.construct (pre ++ bad :: rest) f o = .error e) ∧
      (ListDataset.construct good f o = .ok ds →
        (∀ i : ℕ, (good[i]?).map (ProcessDataEntry.call f o)
            = (ds.list_data[i]?).map Except.ok) ∧
        (∀ i : ℕ, (ds.iterate.1)[i]?
            = (ds.list_data[i]?).map
                (fun d => setKey d "source" (.src ⟨"list_data", i + 1⟩)))) := by
  constructor
  · intro hpre hbad
    unfold ListDataset.construct
    rw [processAll_append_err f o pre bad rest e hpre hbad]
    rfl
  · intro hok
    have hall : processAll f o good = .ok ds.list_data := by
      unfold ListDataset.construct at hok
      cases hq : processAll f o good with
      | error e2 => rw [hq] at hok; exact absurd hok nofun
      | ok rs =>
          rw [hq] at hok
          injection hok with h2
          subst h2
          rfl
    refine ⟨processAll_ok_get f o good ds.list_data hall, ?_⟩
    intro i
    show (withSource ds.list_data 1)[i]? = _
    rw [withSource_getElem]
    have : 1 + i = i + 1 := by omega
    rw [this]

/-- Witness for C8: a two-record list whose second record misses `target`
fails with the missing-required-field error; the successful part is
witnessed on the singleton valid list. -/
theorem c8_witness :
    ListDataset.construct [c8good, c8bad] .D true
      = .error (.dataError (missingFieldMsg "target")) ∧
      ListDataset.construct [c8good] .D true = .ok c4ds := by
  constructor
  · exact (c8_eager_validation .D true [c8good] c8bad [] _ [c8good] c4ds).1
      (by
        intro d hd
        rw [List.mem_singleton] at hd
        subst hd
        exact ⟨_, rfl⟩)
      (by rfl)
  · rfl

end GluonTS
